import Mathlib

/-!
Shallow embedding of the task-agent repository (Electron project-planning agent).

Embedded source files:
* `src/electron/agent/LLMService.ts`   — provider abstraction, `chat`, Google normalization.
* `src/electron/agent/WorkflowEngine.ts` — step-indexed conversational state machine,
  task generation and decomposition.

External effects (the LLM backend, `JSON.parse`/`JSON.stringify`, and the file system)
are modelled as explicit parameters/oracles; everything the TypeScript code computes
itself (string building, keyword dispatch, tree traversal, the bookkeeping of the
decomposition loop) is translated directly.
-/

/-- LangChain-style chat message, tagged by the role string that `getType()` reports.
`other tag content` models the remaining LangChain message kinds (tool, function,
generic, ...), whose `getType()` is neither "system", "human" nor "ai". -/
inductive Message where
  | system (content : String)
  | human (content : String)
  | ai (content : String)
  | other (tag : String) (content : String)
deriving Repr, DecidableEq

/-- The role string returned by the LangChain method `BaseMessage.getType()`. -/
def Message.getType : Message → String
  | .system _ => "system"
  | .human _ => "human"
  | .ai _ => "ai"
  | .other tag _ => tag

/-- The text content of a message (`msg.content.toString()` on string-content messages). -/
def Message.content : Message → String
  | .system c => c
  | .human c => c
  | .ai c => c
  | .other _ c => c

/-- The four provider tags of `LLMService.ts` (`type LLMProvider`). -/
inductive LLMProvider where
  | openai
  | anthropic
  | google
  | ollama
deriving Repr, DecidableEq

/-- The literal string value of a provider tag (the TS type is a union of these strings;
string interpolation of the tag prints exactly this text). -/
def LLMProvider.tag : LLMProvider → String
  | .openai => "openai"
  | .anthropic => "anthropic"
  | .google => "google"
  | .ollama => "ollama"

/-- A constructed chat backend (`ChatOpenAI` / `ChatAnthropic` / `ChatGoogleGenerativeAI`
/ `ChatOllama`).  All four branches of the switch in `configure` build a backend for the
chosen provider from the model id and (optional) API key; backend-internal options
(base URL, retry count) do not affect any embedded behavior and are not modelled. -/
structure BackendModel where
  provider : LLMProvider
  modelId : String
  apiKey : Option String
deriving Repr, DecidableEq

/-- State of `LLMService`: `model` is null until configured; `currentProvider`
mirrors the last configured provider tag. -/
structure LLMService where
  model : Option BackendModel
  currentProvider : Option LLMProvider
deriving Repr, DecidableEq

/-- A freshly constructed `LLMService` ("Default to Mock/Null until configured"). -/
def LLMService.init : LLMService := ⟨none, none⟩

/-- `LLMService.configure`: unconditionally replaces the current provider and the
active backend model. -/
def LLMService.configure (svc : LLMService) (provider : LLMProvider) (modelId : String)
    (apiKey : Option String) : LLMService :=
  { svc with
    currentProvider := some provider
    model := some ⟨provider, modelId, apiKey⟩ }

/-- `LLMService.preprocessForGoogle`: separate system messages from conversation
messages (one pass, order preserved), join all system contents with a blank line,
emit the combined system message first when non-empty (JS string truthiness), then
the conversation messages with any non-human, ai-or-system tagged message coerced
to an `AIMessage` and every other message kept as is. -/
def preprocessForGoogle (messages : List Message) : List Message :=
  let systemMessages := messages.filter (fun m => m.getType == "system")
  let conversationMessages := messages.filter (fun m => m.getType != "system")
  let combinedSystemContent := String.intercalate "\n\n" (systemMessages.map Message.content)
  let head := if combinedSystemContent == "" then [] else [Message.system combinedSystemContent]
  let tail := conversationMessages.map (fun m =>
    if m.getType == "human" then m
    else if m.getType == "ai" || m.getType == "system" then Message.ai m.content
    else m)
  head ++ tail

/-- The message of the rejection installed by the 60 second timeout timer in `chat`. -/
def timeoutMessage : String := "Request timed out after 60 seconds"

/-- The mock reply returned by `chat` when no provider is configured, embedding the
content of the last message. -/
def mockReply (lastMsg : String) : String :=
  "[MOCK AI - No Provider Set] I heard: \"" ++ lastMsg ++
    "\". \n\nPlease configure a provider (OpenAI, Anthropic, Google, or Ollama) to continue."

/-- Message of the TypeError raised by `messages[messages.length - 1].content` when
`messages` is empty (indexing at -1 yields `undefined`). -/
def undefinedContentError : String :=
  "TypeError: Cannot read properties of undefined (reading \u0027content\u0027)"

/-- String interpolation of `this.currentProvider` (a provider tag string, or the
text "null" before any configuration). -/
def providerLabel : Option LLMProvider → String
  | some p => p.tag
  | none => "null"

/-- `LLMService.chat`.  The `backend` parameter models the entire awaited
`Promise.race` of the streaming accumulation against the 60 second timer, as a
function of the (possibly normalized) message list actually sent: `.ok s` is the
accumulated stream content, `.error msg` is any rejection — a stream/transport
exception or the timer firing first (with message `timeoutMessage`).  The result
type `Except String String` records whether `chat` itself resolves (`.ok`) or
rejects (`.error`): the only rejection path is the unconfigured branch reading
`.content` of `undefined` on an empty message list; every backend-level rejection
is caught and turned into an `Error connecting to ...` reply string. -/
def LLMService.chat (svc : LLMService) (backend : List Message → Except String String)
    (messages : List Message) : Except String String :=
  match svc.model with
  | none =>
    match messages.getLast? with
    | none => .error undefinedContentError
    | some lastMsg => .ok (mockReply lastMsg.content)
  | some _ =>
    let processedMessages :=
      if svc.currentProvider = some .google then preprocessForGoogle messages else messages
    match backend processedMessages with
    | .ok fullContent => .ok fullContent
    | .error errMsg =>
      .ok ("Error connecting to " ++ providerLabel svc.currentProvider ++ ": " ++ errMsg)

/-- Unfolding of `String.append` to list append on the underlying character data. -/
theorem strData_append (s t : String) : (s ++ t).data = s.data ++ t.data := rfl

/-- Elements surviving `drop 1` of the normalized list are conversation-derived. -/
theorem preprocessForGoogle_drop_not_system (messages : List Message) :
    ∀ m ∈ (preprocessForGoogle messages).drop 1, m.getType ≠ "system" := by
  intro m hm
  have htail : ∀ x ∈ (messages.filter (fun m => m.getType != "system")).map (fun m =>
      if m.getType == "human" then m
      else if m.getType == "ai" || m.getType == "system" then Message.ai m.content
      else m), x.getType ≠ "system" := by
    intro x hx
    rcases List.mem_map.mp hx with ⟨y, hy, hxy⟩
    have hyns : y.getType ≠ "system" := by
      have := (List.mem_filter.mp hy).2
      simpa using this
    by_cases hh : y.getType == "human"
    · subst hxy
      simp only [hh, if_true]
      simpa using hyns
    · by_cases ha : y.getType == "ai" || y.getType == "system"
      · subst hxy
        simp only [hh, if_false, ha, if_true]
        simp [Message.getType]
      · subst hxy
        simp only [hh, if_false, ha]
        simpa using hyns
  unfold preprocessForGoogle at hm
  simp only at hm
  by_cases hc : String.intercalate "\n\n"
      ((messages.filter (fun m => m.getType == "system")).map Message.content) == ""
  · simp only [hc, if_true, List.nil_append] at hm
    exact htail m (List.mem_of_mem_drop hm)
  · simp only [hc, if_false, List.singleton_append, List.drop_succ_cons, List.drop_zero] at hm
    exact htail m hm

/-- C6: the Google-specific normalization yields a sequence in which every message at a
position later than 0 is not tagged system, and at most one message in the whole output
is tagged system (so a system-tagged message, when present, sits at position 0). -/
theorem preprocessForGoogle_system_only_first (messages : List Message) :
    (((preprocessForGoogle messages).drop 1).all (fun m => m.getType != "system")) = true ∧
    (preprocessForGoogle messages).countP (fun m => m.getType == "system") ≤ 1 ∧
    (∀ i m, 1 ≤ i → (preprocessForGoogle messages).get? i = some m → m.getType ≠ "system") := by
  refine ⟨?_, ?_, ?_⟩
  · rw [List.all_eq_true]
    intro m hm
    have := preprocessForGoogle_drop_not_system messages m hm
    simpa using this
  · have hsplit : preprocessForGoogle messages =
        (preprocessForGoogle messages).take 1 ++ (preprocessForGoogle messages).drop 1 :=
      (List.take_append_drop 1 _).symm
    calc (preprocessForGoogle messages).countP (fun m => m.getType == "system")
        = ((preprocessForGoogle messages).take 1).countP (fun m => m.getType == "system") +
          ((preprocessForGoogle messages).drop 1).countP (fun m => m.getType == "system") := by
          conv_lhs => rw [hsplit]
          exact List.countP_append _ _ _
      _ ≤ 1 + 0 := by
          have h1 : ((preprocessForGoogle messages).take 1).countP
              (fun m => m.getType == "system") ≤ 1 := by
            calc ((preprocessForGoogle messages).take 1).countP (fun m => m.getType == "system")
                ≤ ((preprocessForGoogle messages).take 1).length := List.countP_le_length _
              _ ≤ 1 := List.length_take_le 1 _
          have h2 : ((preprocessForGoogle messages).drop 1).countP
              (fun m => m.getType == "system") = 0 := by
            rw [List.countP_eq_zero]
            intro a ha
            have := preprocessForGoogle_drop_not_system messages a ha
            simpa using this
          omega
      _ = 1 := rfl
  · intro i m hi hget
    have hmem : m ∈ (preprocessForGoogle messages).drop 1 := by
      obtain ⟨j, rfl⟩ : ∃ j, i = 1 + j := ⟨i - 1, by omega⟩
      have : ((preprocessForGoogle messages).drop 1).get? j = some m := by
        rw [List.get?_drop]
        exact hget
      exact List.get?_mem this
    exact preprocessForGoogle_drop_not_system messages m hmem

/-- C4: once configured, `chat` never rejects: for every backend outcome it resolves to
a plain string, and when the backend raises any exception (a transport failure or the
60 second timeout firing first), the reply is exactly the `Error connecting to ...`
string, which embeds both the tag of the configured provider and the underlying message. -/
theorem chat_configured_never_throws (svc0 : LLMService) (p : LLMProvider)
    (modelId : String) (apiKey : Option String)
    (backend : List Message → Except String String) (messages : List Message) (e : String) :
    (∃ s, (svc0.configure p modelId apiKey).chat backend messages = .ok s) ∧
    ((svc0.configure p modelId apiKey).chat (fun _ => .error e) messages =
      .ok ("Error connecting to " ++ p.tag ++ ": " ++ e)) ∧
    (∃ pre post, ("Error connecting to " ++ p.tag ++ ": " ++ e).data =
      pre ++ p.tag.data ++ post) ∧
    (∃ pre post, ("Error connecting to " ++ p.tag ++ ": " ++ e).data =
      pre ++ e.data ++ post) ∧
    ((svc0.configure p modelId apiKey).chat (fun _ => .error timeoutMessage) messages =
      .ok ("Error connecting to " ++ p.tag ++ ": " ++ timeoutMessage)) := by
  refine ⟨?_, ?_, ?_, ?_, ?_⟩
  · unfold LLMService.chat LLMService.configure
    simp only
    cases backend (if (some p : Option LLMProvider) = some LLMProvider.google then
        preprocessForGoogle messages else messages) with
    | ok s => exact ⟨s, rfl⟩
    | error msg => exact ⟨_, rfl⟩
  · unfold LLMService.chat LLMService.configure providerLabel
    simp
  · refine ⟨"Error connecting to ".data, (": " ++ e).data, ?_⟩
    simp only [strData_append, List.append_assoc]
  · refine ⟨("Error connecting to " ++ p.tag ++ ": ").data, [], ?_⟩
    simp only [strData_append, List.append_assoc, List.append_nil]
  · unfold LLMService.chat LLMService.configure providerLabel
    simp

/-- C5 counterexample: on an unconfigured service, `chat` with the empty message list
does not return a mock reply — it raises (the promise rejects with a TypeError from
reading `.content` of `undefined`), refuting "for every message list ... never raises". -/
theorem chat_unconfigured_empty_list_raises :
    LLMService.init.chat (fun _ => .ok "ignored") [] = .error undefinedContentError ∧
    ¬ ∃ s, LLMService.init.chat (fun _ => .ok "ignored") [] = .ok s := by
  constructor
  · rfl
  · rintro ⟨s, hs⟩
    simp [LLMService.chat, LLMService.init] at hs

/-- C5 (amended): on an unconfigured service (`model` unset), `chat` applied to any
NON-empty message list resolves — never raises — with the fixed mock reply that embeds
the content of the last message of the list verbatim. -/
theorem chat_unconfigured_mock (svc : LLMService) (hm : svc.model = none)
    (backend : List Message → Except String String) (messages : List Message)
    (hne : messages ≠ []) :
    ∃ m, messages.getLast? = some m ∧
      svc.chat backend messages = .ok (mockReply m.content) ∧
      (∃ pre post, (mockReply m.content).data = pre ++ m.content.data ++ post) := by
  obtain ⟨m, hlast⟩ : ∃ m, messages.getLast? = some m := by
    cases h : messages.getLast? with
    | none => exact absurd (List.getLast?_eq_none_iff.mp h) hne
    | some m => exact ⟨m, rfl⟩
  refine ⟨m, hlast, ?_, ?_⟩
  · unfold LLMService.chat
    rw [hm, hlast]
  · refine ⟨"[MOCK AI - No Provider Set] I heard: \"".data,
      ("\". \n\nPlease configure a provider (OpenAI, Anthropic, Google, or Ollama) to continue.").data, ?_⟩
    unfold mockReply
    simp only [strData_append, List.append_assoc]

/-- Witness for `chat_unconfigured_mock` at a concrete non-empty list. -/
theorem chat_unconfigured_mock_witness :
    LLMService.init.model = none ∧
    ([Message.human "hi"] : List Message) ≠ [] ∧
    (∃ m, ([Message.human "hi"] : List Message).getLast? = some m ∧
      LLMService.init.chat (fun _ => .ok "") [Message.human "hi"] = .ok (mockReply m.content) ∧
      (∃ pre post, (mockReply m.content).data = pre ++ m.content.data ++ post)) :=
  ⟨rfl, by simp, chat_unconfigured_mock LLMService.init rfl (fun _ => .ok "")
    [Message.human "hi"] (by simp)⟩

/-! The task tree (`interface TaskNode` in `WorkflowEngine.ts`).

`status` and `type` are string-literal unions in TypeScript and `JSON.parse` performs
no validation, so both are modelled as plain strings.  The `type` field keeps its
source name; `children` and `decomposed` are optional exactly as in the source
(`none` = property absent). -/

inductive TaskNode where
  | mk (id : String) (title : String) (status : String) (type : String)
      (children : Option (List TaskNode)) (decomposed : Option Bool)

/-- Field accessor for `id`. -/
def TaskNode.id : TaskNode → String
  | .mk i _ _ _ _ _ => i

/-- Field accessor for `title`. -/
def TaskNode.title : TaskNode → String
  | .mk _ t _ _ _ _ => t

/-- Field accessor for `status`. -/
def TaskNode.status : TaskNode → String
  | .mk _ _ s _ _ _ => s

/-- Field accessor for `type`. -/
def TaskNode.type : TaskNode → String
  | .mk _ _ _ ty _ _ => ty

/-- Field accessor for the optional `children` property. -/
def TaskNode.children : TaskNode → Option (List TaskNode)
  | .mk _ _ _ _ c _ => c

/-- Field accessor for the optional `decomposed` property. -/
def TaskNode.decomposed : TaskNode → Option Bool
  | .mk _ _ _ _ _ d => d

/-- The children of the node as a list (absent property read as the empty list). -/
def TaskNode.childrenList (n : TaskNode) : List TaskNode := n.children.getD []

/-- The decomposition-eligibility test of `findTasksToDecompose` (`WorkflowEngine.ts`
line 284): node.type equal to "main-task", and !node.decomposed, and (!node.children ||
node.children.length === 0).  JS truthiness: `!node.decomposed` is true when the
property is absent or `false`; `!node.children` is true only when the property is
absent (an empty array is truthy), in which case the length test is skipped. -/
def eligibleB (n : TaskNode) : Bool :=
  n.type == "main-task" && !(n.decomposed.getD false) &&
    (match n.children with
     | none => true
     | some cs => cs.isEmpty)

/-! Pre-order (depth-first, node before children) enumeration of a task tree and of
a forest of task trees: the reference order used by the specification. -/
mutual
def preorderNodes : TaskNode → List TaskNode
  | .mk i t s ty none d => [.mk i t s ty none d]
  | .mk i t s ty (some cs) d => .mk i t s ty (some cs) d :: preorderForest cs

def preorderForest : List TaskNode → List TaskNode
  | [] => []
  | c :: cs => preorderNodes c ++ preorderForest cs
end

/-! Append-form of the candidate traversal: the eligible nodes of a tree (and of a
forest) in pre-order.  This is the value the accumulator-style source function
computes; the bridge is `findFrom_eq_elig`. -/
mutual
def eligNode : TaskNode → List TaskNode
  | .mk i t s ty none d =>
      if eligibleB (.mk i t s ty none d) then [.mk i t s ty none d] else []
  | .mk i t s ty (some cs) d =>
      (if eligibleB (.mk i t s ty (some cs) d) then [.mk i t s ty (some cs) d] else []) ++
        eligForest cs

def eligForest : List TaskNode → List TaskNode
  | [] => []
  | c :: cs => eligNode c ++ eligForest cs
end

/-! `WorkflowEngine.findTasksToDecompose(node, results)`: push the node onto the
accumulator when eligible, then recurse into each child in order (the mutation of
the `results` array in the source is rendered as threading the accumulator; the
`if (node.children)` guard skips recursion only when the property is absent,
and looping over an empty array is a no-op, exactly as here). -/
mutual
def findTasksToDecomposeFrom : TaskNode → List TaskNode → List TaskNode
  | .mk i t s ty none d, results =>
      if eligibleB (.mk i t s ty none d) then results ++ [.mk i t s ty none d] else results
  | .mk i t s ty (some cs) d, results =>
      findTasksToDecomposeList cs
        (if eligibleB (.mk i t s ty (some cs) d)
          then results ++ [.mk i t s ty (some cs) d] else results)

def findTasksToDecomposeList : List TaskNode → List TaskNode → List TaskNode
  | [], results => results
  | c :: rest, results => findTasksToDecomposeList rest (findTasksToDecomposeFrom c results)
end

/-- `findTasksToDecompose(node)` with the default empty accumulator. -/
def findTasksToDecompose (n : TaskNode) : List TaskNode := findTasksToDecomposeFrom n []

/-- The eligibility predicate of the specification, written from the words of the claim:
type = main-task, decomposed not equal to true, children empty or absent. -/
def specEligibleB (t : TaskNode) : Bool :=
  t.type == "main-task" && t.decomposed != some true && t.childrenList.isEmpty

/-- The source eligibility test coincides with the predicate of the specification. -/
theorem eligibleB_eq_specEligibleB : eligibleB = specEligibleB := by
  funext t
  obtain ⟨i, ti, s, ty, c, d⟩ := t
  simp only [eligibleB, specEligibleB, TaskNode.type, TaskNode.children, TaskNode.decomposed,
    TaskNode.childrenList]
  have h1 : ((none : Option Bool) != some true) = true := rfl
  have h2 : ((some false : Option Bool) != some true) = true := rfl
  have h3 : ((some true : Option Bool) != some true) = false := rfl
  cases c with
  | none =>
    cases d with
    | none => simp [h1]
    | some b => cases b <;> simp [h2, h3]
  | some cs =>
    cases d with
    | none => simp [h1]
    | some b => cases b <;> simp [h2, h3]

/-- The append-form traversal is the pre-order filter by eligibility. -/
theorem eligNode_eq_filter : ∀ n : TaskNode, eligNode n = (preorderNodes n).filter eligibleB := by
  refine preorderNodes.induct
    (fun n => eligNode n = (preorderNodes n).filter eligibleB)
    (fun cs => eligForest cs = (preorderForest cs).filter eligibleB)
    ?_ ?_ ?_ ?_
  · intro i t s ty d
    simp only [eligNode, preorderNodes]
    cases h : eligibleB (TaskNode.mk i t s ty none d) <;> simp [List.filter, h]
  · intro i t s ty cs d ih
    simp only [eligNode, preorderNodes, List.filter, ih]
    cases h : eligibleB (TaskNode.mk i t s ty (some cs) d) <;> simp [h]
  · simp [eligForest, preorderForest]
  · intro c cs ih1 ih2
    simp [eligForest, preorderForest, ih1, ih2, List.filter_append]

/-- The accumulator-style source traversal appends the elements of `eligNode`. -/
theorem findFrom_eq_elig : ∀ (n : TaskNode) (acc : List TaskNode),
    findTasksToDecomposeFrom n acc = acc ++ eligNode n := by
  refine preorderNodes.induct
    (fun n => ∀ acc, findTasksToDecomposeFrom n acc = acc ++ eligNode n)
    (fun cs => ∀ acc, findTasksToDecomposeList cs acc = acc ++ eligForest cs)
    ?_ ?_ ?_ ?_
  · intro i t s ty d acc
    simp only [findTasksToDecomposeFrom, eligNode]
    cases h : eligibleB (TaskNode.mk i t s ty none d) <;> simp [h]
  · intro i t s ty cs d ih acc
    simp only [findTasksToDecomposeFrom, eligNode, ih]
    cases h : eligibleB (TaskNode.mk i t s ty (some cs) d) <;> simp [h]
  · intro acc
    simp [findTasksToDecomposeList, eligForest]
  · intro c cs ih1 ih2 acc
    simp [findTasksToDecomposeList, eligForest, ih1, ih2]

/-- C3: for every TaskNode tree, the candidate traversal returns exactly the nodes
satisfying the eligibility predicate of the specification (type = main-task, decomposed not
equal to true, children empty or absent), enumerated in depth-first pre-order of the
tree; the first conjunct unfolds the predicate to the three conditions of the claim. -/
theorem findTasksToDecompose_is_preorder_filter (n : TaskNode) :
    (∀ t : TaskNode, specEligibleB t = true ↔
      (t.type = "main-task" ∧ t.decomposed ≠ some true ∧
        (t.children = none ∨ t.children = some []))) ∧
    findTasksToDecompose n = (preorderNodes n).filter specEligibleB := by
  constructor
  · intro t
    obtain ⟨i, ti, s, ty, c, d⟩ := t
    simp only [specEligibleB, TaskNode.type, TaskNode.children, TaskNode.decomposed,
      TaskNode.childrenList, Bool.and_eq_true, beq_iff_eq, bne_iff_ne]
    cases c with
    | none => simp
    | some cs =>
      cases cs with
      | nil => simp
      | cons x xs => simp
  · rw [findTasksToDecompose, findFrom_eq_elig, eligNode_eq_filter, List.nil_append,
      eligibleB_eq_specEligibleB]

/-! The WorkflowEngine (`src/electron/agent/WorkflowEngine.ts`). -/

/-- The step enum (numeric values 1..8 in the source). -/
inductive WorkflowStep where
  | INITIATION
  | TASK_GENERATION
  | DECOMPOSITION
  | ANALYSIS
  | COORDINATION
  | PLANNING
  | EXECUTION
  | COMPLETED
deriving Repr, DecidableEq

/-- The numeric enum value of a step, as string interpolation prints it. -/
def WorkflowStep.num : WorkflowStep → Nat
  | .INITIATION => 1
  | .TASK_GENERATION => 2
  | .DECOMPOSITION => 3
  | .ANALYSIS => 4
  | .COORDINATION => 5
  | .PLANNING => 6
  | .EXECUTION => 7
  | .COMPLETED => 8

/-- `interface ProjectContext`. -/
structure ProjectContext where
  name : String
  description : String
  requirements : List String
  chatHistory : List Message

/-- Mutable state of a `WorkflowEngine` instance.  The `llm` and `fs` collaborator
handles are modelled by the `Oracle` below; `tasksFile` is the observable content of
`tasks.json` under the project root (`none` = the file does not exist), the only
storage the engine reads or writes. -/
structure WorkflowEngine where
  currentStep : WorkflowStep
  context : ProjectContext
  isDecomposing : Bool
  tasksFile : Option String

/-- A freshly constructed engine (constructor defaults). -/
def WorkflowEngine.fresh : WorkflowEngine :=
  { currentStep := .INITIATION
    context := { name := "Untitled Project", description := "", requirements := []
                 chatHistory := [] }
    isDecomposing := false
    tasksFile := none }

/-- External effects of one engine operation.
* `chatResp k` — the string the `k`-th `llm.chat` call of the operation resolves to
  (`chat` never rejects on the non-empty message lists the engine sends; see the
  LLMService theorems).  The engine builds prompt strings for these calls whose
  content never influences the control flow of the engine itself, so the prompts are not
  reconstructed here.
* `parseNode s` / `parseArr s` — `JSON.parse(s)` read as a `TaskNode` object / a
  `TaskNode[]` array; `none` models a thrown `SyntaxError`.
* `stringify t` — `JSON.stringify(t, null, 2)`.
* `readErrMsg` — the `message` of the ENOENT error `fs.readFile` rejects with when
  `tasks.json` does not exist.
* `parseErrMsg` — the `message` of the `SyntaxError` thrown by `JSON.parse` on the
  stored `tasks.json` text when that text is not valid JSON. -/
structure Oracle where
  chatResp : Nat → String
  parseNode : String → Option TaskNode
  parseArr : String → Option (List TaskNode)
  stringify : TaskNode → String
  readErrMsg : String
  parseErrMsg : String

/-- Left-to-right replacement of every non-overlapping occurrence of `pattern`
(JS `String.prototype.replace` with a global regex of a literal pattern).  The fuel
argument is instantiated with the input length, which each step strictly consumes. -/
def replaceAllFuel (pattern repl : List Char) : Nat → List Char → List Char
  | _, [] => []
  | 0, l => l
  | fuel + 1, c :: rest =>
    if pattern ≠ [] && pattern.isPrefixOf (c :: rest) then
      repl ++ replaceAllFuel pattern repl fuel (rest.drop (pattern.length - 1))
    else c :: replaceAllFuel pattern repl fuel rest

/-- `s.replace(/pattern/g, repl)` for a literal pattern. -/
def jsReplaceAll (s pattern repl : String) : String :=
  ⟨replaceAllFuel pattern.data repl.data s.data.length s.data⟩

/-- Whitespace as trimmed by JS `String.prototype.trim` (the code points appearing in
the embedded strings; the full JS class also covers exotic unicode spaces). -/
def wsChar (c : Char) : Bool := c == ' ' || c == '\t' || c == '\n' || c == '\r'

/-- JS `String.prototype.trim`. -/
def jsTrim (s : String) : String :=
  ⟨((s.data.dropWhile wsChar).reverse.dropWhile wsChar).reverse⟩

/-- JS `String.prototype.toLowerCase` (per-character lowering). -/
def jsToLowerCase (s : String) : String := ⟨s.data.map Char.toLower⟩

/-- The fence-stripping step both generation paths share:
`response.replace ```json then ``` by the empty string, globally, then trim`. -/
def cleanJson (response : String) : String :=
  jsTrim (jsReplaceAll (jsReplaceAll response "```json" "") "```" "")

/-- JS `String.prototype.includes` (contiguous substring containment). -/
def jsIncludes (s sub : String) : Bool := decide (sub.data <:+: s.data)

/-- `this.context.chatHistory[this.context.chatHistory.length - 1].content.toString()`.
Every call site runs after `processMessage` pushed the user message, so the history
is non-empty there and the `getD ""` default is never taken. -/
def lastMessageText (history : List Message) : String :=
  (history.getLast?.map Message.content).getD ""

/-- `WorkflowEngine.generateHighLevelTasks`: one chat call with a prompt embedding the
full chat history; strip fences, `JSON.parse` the result.  On success persist the
pretty-printed node to `tasks.json`, advance to DECOMPOSITION and return the summary
(`projectNode.children?.length || 0` equals the length of `childrenList`).  On parse
failure the exception is caught and a retry message returned with no further state
change — but note the caller has already set `currentStep` before invoking this. -/
def generateHighLevelTasks (st : WorkflowEngine) (oracle : Oracle) :
    WorkflowEngine × String :=
  let response := oracle.chatResp 0
  match oracle.parseNode (cleanJson response) with
  | some projectNode =>
      ({ st with
          tasksFile := some (oracle.stringify projectNode)
          currentStep := .DECOMPOSITION },
        "**Step 2 Complete!** I\u0027ve generated the initial project structure.\n\n**Project:** "
          ++ projectNode.title ++ "\n**Tasks Created:** "
          ++ toString projectNode.childrenList.length
          ++ " high-level tasks\n\nCheck the **Task Tree** view to see the structure.\n\n---\n\n**Ready for Step 3: Decomposition?**\nThis will break each task into actionable sub-tasks. Type **\"decompose\"** or **\"yes\"** to begin.")
  | none =>
      (st, "I tried to generate tasks but failed to parse the output. Let\u0027s try again.")

/-- `WorkflowEngine.handleInitiationStep`: if the lowercased last user message contains
one of the confirmation keywords, set `currentStep` to TASK_GENERATION and immediately
run task generation; otherwise send the interview system prompt plus the last 10
history entries to `llm.chat` and return its reply (one chat call, `chatResp 0`). -/
def handleInitiationStep (st : WorkflowEngine) (oracle : Oracle) :
    WorkflowEngine × String :=
  let lastUserMsg := jsToLowerCase (lastMessageText st.context.chatHistory)
  if jsIncludes lastUserMsg "yes" || jsIncludes lastUserMsg "proceed" ||
      jsIncludes lastUserMsg "looks good" then
    generateHighLevelTasks { st with currentStep := .TASK_GENERATION } oracle
  else
    (st, oracle.chatResp 0)

/-- `WorkflowEngine.decomposeTask` for the `k`-th eligible task: one chat call
(`chatResp k` — the only other per-iteration effects of the loop are the console
logs and the 1.5s back-off sleep, which have no state), fence-strip and parse; a
parse failure is rethrown as `new Error("Failed to parse LLM response")`. -/
def decomposeTaskOutcome (oracle : Oracle) (k : Nat) : Except String (List TaskNode) :=
  match oracle.parseArr (cleanJson (oracle.chatResp k)) with
  | some subTasks => .ok subTasks
  | none => .error "Failed to parse LLM response"

/-- Effect of the body of the decomposition loop on one eligible task: when the outcome is
a list with `length > 0`, set `task.children = subTasks` and `task.decomposed = true`;
on an empty (or failed) outcome the task object is left untouched. -/
def updateTask (oracle : Oracle) (k : Nat) : TaskNode → TaskNode
  | .mk i t s ty c d =>
    match decomposeTaskOutcome oracle k with
    | .ok subTasks =>
        if 0 < subTasks.length then .mk i t s ty (some subTasks) (some true)
        else .mk i t s ty c d
    | .error _ => .mk i t s ty c d

/-! Effect of the whole loop on the tree.  The source collects the eligible nodes of
the original tree up front (`findTasksToDecompose`), then mutates the collected node
objects in place, the `i`-th collected node with the `i`-th chat call; nothing else in
the tree is touched, and the collected nodes are exactly the originally-eligible ones
(they are never re-tested after mutation).  The pure rendering therefore rebuilds the
tree, replacing each originally-eligible node (which has no children to recurse into)
by `updateTask` at its pre-order index among eligible nodes — the same index the
source loop uses, as proved by `applyNode_snd` and `applyNode_mem` below. -/
mutual
def applyNode (oracle : Oracle) : TaskNode → Nat → TaskNode × Nat
  | .mk i t s ty none d, k =>
      if eligibleB (.mk i t s ty none d) then
        (updateTask oracle k (.mk i t s ty none d), k + 1)
      else (.mk i t s ty none d, k)
  | .mk i t s ty (some cs) d, k =>
      if eligibleB (.mk i t s ty (some cs) d) then
        (updateTask oracle k (.mk i t s ty (some cs) d), k + 1)
      else
        let r := applyForest oracle cs k
        (.mk i t s ty (some r.1) d, r.2)

def applyForest (oracle : Oracle) : List TaskNode → Nat → List TaskNode × Nat
  | [], k => ([], k)
  | c :: cs, k =>
      let rc := applyNode oracle c k
      let rcs := applyForest oracle cs rc.2
      (rc.1 :: rcs.1, rcs.2)
end

/-- The outcome line the loop pushes for the `k`-th eligible task: a ✅ line on a
non-empty success, a ⚠️ line on a caught failure, and — since the source pushes
nothing when `subTasks.length > 0` fails on a successful parse — no line at all for
an empty parsed array. -/
def reportSlot (oracle : Oracle) (k : Nat) (task : TaskNode) : Option String :=
  match decomposeTaskOutcome oracle k with
  | .ok subTasks =>
      if 0 < subTasks.length then
        some ("✅ **" ++ task.title ++ "** → " ++ toString subTasks.length ++ " sub-tasks")
      else none
  | .error msg => some ("⚠️ **" ++ task.title ++ "** - Failed: " ++ msg)

/-- The outcome slots of the loop starting at call index `k`: one slot per remaining
task, in loop order. -/
def reportSlotsFrom (oracle : Oracle) (k : Nat) : List TaskNode → List (Option String)
  | [] => []
  | t :: ts => reportSlot oracle k t :: reportSlotsFrom oracle (k + 1) ts

/-- The outcome slots of the whole loop (call indices 0, 1, ...). -/
def reportSlots (oracle : Oracle) (tasks : List TaskNode) : List (Option String) :=
  reportSlotsFrom oracle 0 tasks

/-- The `results` array after the loop: the non-skipped outcome lines in task order. -/
def decompResults (oracle : Oracle) (tasks : List TaskNode) : List String :=
  (reportSlots oracle tasks).reduceOption

/-- Increments of `decomposedCount` starting at call index `k`. -/
def decompCountFrom (oracle : Oracle) (k : Nat) : List TaskNode → Nat
  | [] => 0
  | _ :: ts =>
    (match decomposeTaskOutcome oracle k with
     | .ok subTasks => if 0 < subTasks.length then 1 else 0
     | .error _ => 0) + decompCountFrom oracle (k + 1) ts

/-- `decomposedCount` after the loop. -/
def decompCount (oracle : Oracle) (tasks : List TaskNode) : Nat :=
  decompCountFrom oracle 0 tasks

/-- `WorkflowEngine.runDecomposition`.  Flag set first; then inside the try block:
`fs.readFile("tasks.json")` rejects with ENOENT when the file is absent, so the
absent-file case lands in the outer catch (flag reset, generic error reply) and the
`if (!tasksJson)` guard fires only when the stored text is the empty string — and
that early return, like the `length === 0` early return, leaves the flag set.
`JSON.parse` failure on the stored text also lands in the outer catch.  Otherwise the
loop runs (its per-task failures are isolated), the updated tree is persisted once
via `writeSafe` (modelled as always succeeding), the flag is cleared, the step moves
to ANALYSIS and the aggregate reply is produced. -/
def runDecomposition (st : WorkflowEngine) (oracle : Oracle) : WorkflowEngine × String :=
  let st1 := { st with isDecomposing := true }
  match st1.tasksFile with
  | none =>
      ({ st1 with isDecomposing := false },
        "Error during decomposition: " ++ oracle.readErrMsg)
  | some tasksJson =>
      if tasksJson == "" then
        (st1, "No tasks.json found. Please complete Step 2 first.")
      else
        match oracle.parseNode tasksJson with
        | none =>
            ({ st1 with isDecomposing := false },
              "Error during decomposition: " ++ oracle.parseErrMsg)
        | some rootTask =>
            let tasksToDecompose := findTasksToDecompose rootTask
            if tasksToDecompose.length == 0 then
              ({ st1 with currentStep := .ANALYSIS },
                "All tasks are already decomposed! Moving to **Step 4: Analysis**.")
            else
              let newRoot := (applyNode oracle rootTask 0).1
              let results := decompResults oracle tasksToDecompose
              let decomposedCount := decompCount oracle tasksToDecompose
              ({ st1 with
                  tasksFile := some (oracle.stringify newRoot)
                  isDecomposing := false
                  currentStep := .ANALYSIS },
                "**Decomposition Complete!**\n\n" ++ String.intercalate "\n" results ++
                  "\n\n---\n\n**" ++ toString decomposedCount ++
                  "** tasks were broken down into sub-tasks. Check the **Task Tree** to see the updated structure.\n\nMoving to **Step 4: Analysis**. Type **\"analyze\"** to continue.")

/-- The menu reply of the decomposition step handler. -/
def decompositionMenu : String :=
  "We\u0027re now in **Step 3: Decomposition**.\n\nI will analyze each high-level task and break it down into actionable sub-tasks.\n\n**Options:**\n- Type **\"decompose\"** or **\"yes\"** to start automatic decomposition\n- Type **\"skip\"** to move to the next step\n\nWhat would you like to do?"

/-- `WorkflowEngine.handleDecompositionStep`: confirmation keywords are tested first
(guarded by the in-progress flag), then the skip keywords, else the menu reply. -/
def handleDecompositionStep (st : WorkflowEngine) (oracle : Oracle) :
    WorkflowEngine × String :=
  let lastUserMsg := jsToLowerCase (lastMessageText st.context.chatHistory)
  if jsIncludes lastUserMsg "decompose" || jsIncludes lastUserMsg "yes" ||
      jsIncludes lastUserMsg "proceed" || jsIncludes lastUserMsg "break" then
    if st.isDecomposing then
      (st, "Decomposition is already in progress. Please wait...")
    else
      runDecomposition st oracle
  else if jsIncludes lastUserMsg "skip" || jsIncludes lastUserMsg "next" then
    ({ st with currentStep := .ANALYSIS },
      "Skipping decomposition. Moving to **Step 4: Analysis**.")
  else
    (st, decompositionMenu)

/-- `WorkflowEngine.processMessage`: push the user message as a `HumanMessage`,
dispatch on the current step (steps past DECOMPOSITION get the numbered placeholder),
push the reply as an `AIMessage` (comment in source: "as AIMessage, not
SystemMessage"), fire the no-op `saveContext`, and return the reply. -/
def processMessage (st : WorkflowEngine) (userMessage : String) (oracle : Oracle) :
    WorkflowEngine × String :=
  let st1 := { st with context := { st.context with
      chatHistory := st.context.chatHistory ++ [Message.human userMessage] } }
  let hr :=
    match st1.currentStep with
    | .INITIATION => handleInitiationStep st1 oracle
    | .TASK_GENERATION => (st1, "I am generating the initial task list...")
    | .DECOMPOSITION => handleDecompositionStep st1 oracle
    | step => (st1, "I am not ready for step " ++ toString step.num ++ " yet.")
  ({ hr.1 with context := { hr.1.context with
      chatHistory := hr.1.context.chatHistory ++ [Message.ai hr.2] } }, hr.2)

/-- Task generation never touches the conversation context. -/
theorem generateHighLevelTasks_context (st : WorkflowEngine) (o : Oracle) :
    (generateHighLevelTasks st o).1.context = st.context := by
  unfold generateHighLevelTasks
  cases h : o.parseNode (cleanJson (o.chatResp 0)) <;> simp [h]

/-- A decomposition run never touches the conversation context. -/
theorem runDecomposition_context (st : WorkflowEngine) (o : Oracle) :
    (runDecomposition st o).1.context = st.context := by
  unfold runDecomposition
  dsimp only
  repeat' split
  all_goals rfl

/-- The decomposition step handler never touches the conversation context. -/
theorem handleDecompositionStep_context (st : WorkflowEngine) (o : Oracle) :
    (handleDecompositionStep st o).1.context = st.context := by
  unfold handleDecompositionStep
  dsimp only
  repeat' split
  all_goals first
    | rfl
    | exact runDecomposition_context st o

/-- The initiation step handler never touches the conversation context. -/
theorem handleInitiationStep_context (st : WorkflowEngine) (o : Oracle) :
    (handleInitiationStep st o).1.context = st.context := by
  unfold handleInitiationStep
  dsimp only
  split
  · exact generateHighLevelTasks_context _ o
  · rfl

/-- C9: every `processMessage` invocation, whatever the step and however the reply was
produced, changes `chatHistory` by appending exactly the human-tagged user message
followed by the reply tagged as an AI message — the previous history is untouched
(it stays as a prefix in its original order), so the history is append-only. -/
theorem processMessage_appends_exactly_two (st : WorkflowEngine) (userMessage : String)
    (oracle : Oracle) :
    (processMessage st userMessage oracle).1.context.chatHistory =
      st.context.chatHistory ++
        [Message.human userMessage, Message.ai (processMessage st userMessage oracle).2] := by
  obtain ⟨step, ctx, flag, tf⟩ := st
  cases step <;>
    simp [processMessage, handleInitiationStep_context, handleDecompositionStep_context]

/-- A concrete oracle on which every JSON parse fails (the model replied in prose). -/
def oracleParseFail : Oracle :=
  { chatResp := fun _ => "This is not JSON"
    parseNode := fun _ => none
    parseArr := fun _ => none
    stringify := fun _ => ""
    readErrMsg := "ENOENT: no such file or directory, open tasks.json"
    parseErrMsg := "Unexpected token T in JSON at position 0" }

/-- An engine sitting at DECOMPOSITION whose project directory has no `tasks.json`. -/
def decompStateNoFile : WorkflowEngine :=
  { currentStep := .DECOMPOSITION
    context := { name := "Untitled Project", description := "", requirements := []
                 chatHistory := [] }
    isDecomposing := false
    tasksFile := none }

/-- C1 (exhibiting the code bug): entering generation via an INITIATION confirmation
("yes") with an unparseable LLM response does return the explanatory failure reply,
does not throw, and persists nothing — but the workflow state is NOT unchanged:
`handleInitiationStep` set `currentStep` to TASK_GENERATION before calling
`generateHighLevelTasks`, so after the failure the step differs from its pre-call
value (INITIATION), and a follow-up message only reaches the TASK_GENERATION
placeholder reply: generation is never retried, contradicting the retry promise in
the reply text and the claimed retryability. -/
theorem initiation_generation_parse_failure_state :
    (processMessage WorkflowEngine.fresh "yes" oracleParseFail).2 =
      "I tried to generate tasks but failed to parse the output. Let\u0027s try again." ∧
    (processMessage WorkflowEngine.fresh "yes" oracleParseFail).1.tasksFile = none ∧
    WorkflowEngine.fresh.currentStep = WorkflowStep.INITIATION ∧
    (processMessage WorkflowEngine.fresh "yes" oracleParseFail).1.currentStep =
      WorkflowStep.TASK_GENERATION ∧
    (processMessage (processMessage WorkflowEngine.fresh "yes" oracleParseFail).1 "yes"
        oracleParseFail).2 = "I am generating the initial task list..." ∧
    (processMessage (processMessage WorkflowEngine.fresh "yes" oracleParseFail).1 "yes"
        oracleParseFail).1.tasksFile = none ∧
    (processMessage (processMessage WorkflowEngine.fresh "yes" oracleParseFail).1 "yes"
        oracleParseFail).1.currentStep = WorkflowStep.TASK_GENERATION :=
  ⟨by decide, rfl, rfl, by decide, by decide, rfl, by decide⟩

/-- C7 (exhibiting the code bug): triggering a decomposition run with `tasks.json`
absent leaves `currentStep` at DECOMPOSITION, writes nothing, and clears the
in-progress flag (a follow-up trigger is not rejected as already in progress) — but
the reply is the generic catch-path text embedding the ENOENT message from
`fs.readFile`, NOT the "complete Step 2 first" guidance: that guidance is only
reachable when the file exists with empty contents, because `fs.readFile` rejects on
a missing file before the `if (!tasksJson)` guard can run. -/
theorem decomposition_missing_file_outcome :
    (processMessage decompStateNoFile "decompose" oracleParseFail).2 =
      "Error during decomposition: " ++ oracleParseFail.readErrMsg ∧
    (processMessage decompStateNoFile "decompose" oracleParseFail).2 ≠
      "No tasks.json found. Please complete Step 2 first." ∧
    (processMessage decompStateNoFile "decompose" oracleParseFail).1.currentStep =
      WorkflowStep.DECOMPOSITION ∧
    (processMessage decompStateNoFile "decompose" oracleParseFail).1.tasksFile = none ∧
    (processMessage decompStateNoFile "decompose" oracleParseFail).1.isDecomposing = false ∧
    (processMessage (processMessage decompStateNoFile "decompose" oracleParseFail).1
        "decompose" oracleParseFail).2 ≠
      "Decomposition is already in progress. Please wait..." :=
  ⟨by decide, by decide, by decide, rfl, by decide, by decide⟩

/-- C10: in the DECOMPOSITION step the confirmation keywords are tested before the
skip keywords, so a message containing both a confirmation keyword (decompose, yes,
proceed, break) and a skip keyword (skip, next) takes the confirmation branch: with
the in-progress flag clear the engine starts the decomposition run, and even with the
flag set it answers "already in progress" — never the skip transition to ANALYSIS. -/
theorem decomposition_confirm_beats_skip (st : WorkflowEngine) (oracle : Oracle)
    (hconf :
      jsIncludes (jsToLowerCase (lastMessageText st.context.chatHistory)) "decompose" = true ∨
      jsIncludes (jsToLowerCase (lastMessageText st.context.chatHistory)) "yes" = true ∨
      jsIncludes (jsToLowerCase (lastMessageText st.context.chatHistory)) "proceed" = true ∨
      jsIncludes (jsToLowerCase (lastMessageText st.context.chatHistory)) "break" = true)
    (hskip :
      jsIncludes (jsToLowerCase (lastMessageText st.context.chatHistory)) "skip" = true ∨
      jsIncludes (jsToLowerCase (lastMessageText st.context.chatHistory)) "next" = true) :
    (st.isDecomposing = false →
      handleDecompositionStep st oracle = runDecomposition st oracle) ∧
    (st.isDecomposing = true →
      handleDecompositionStep st oracle =
        (st, "Decomposition is already in progress. Please wait...")) := by
  unfold handleDecompositionStep
  dsimp only
  have hcond :
      (jsIncludes (jsToLowerCase (lastMessageText st.context.chatHistory)) "decompose" ||
       jsIncludes (jsToLowerCase (lastMessageText st.context.chatHistory)) "yes" ||
       jsIncludes (jsToLowerCase (lastMessageText st.context.chatHistory)) "proceed" ||
       jsIncludes (jsToLowerCase (lastMessageText st.context.chatHistory)) "break") = true := by
    rcases hconf with h | h | h | h <;> simp [h]
  rw [hcond]
  constructor
  · intro hd
    simp [hd]
  · intro hd
    simp [hd]

/-- An engine at DECOMPOSITION whose last user message contains both a confirmation
keyword ("yes") and a skip keyword ("skip"). -/
def decompStateBothKeywords : WorkflowEngine :=
  { currentStep := .DECOMPOSITION
    context := { name := "Untitled Project", description := "", requirements := []
                 chatHistory := [Message.human "Yes, please skip nothing"] }
    isDecomposing := false
    tasksFile := none }

/-- Witness for `decomposition_confirm_beats_skip` at a concrete message holding both
a confirmation and a skip keyword. -/
theorem decomposition_confirm_beats_skip_witness :
    (jsIncludes (jsToLowerCase (lastMessageText decompStateBothKeywords.context.chatHistory))
      "yes" = true) ∧
    (jsIncludes (jsToLowerCase (lastMessageText decompStateBothKeywords.context.chatHistory))
      "skip" = true) ∧
    (decompStateBothKeywords.isDecomposing = false →
      handleDecompositionStep decompStateBothKeywords oracleParseFail =
        runDecomposition decompStateBothKeywords oracleParseFail) :=
  ⟨by decide, by decide,
    (decomposition_confirm_beats_skip decompStateBothKeywords oracleParseFail
      (Or.inr (Or.inl (by decide))) (Or.inl (by decide))).1⟩

/-- The decomposed form of a task: the parsed sub-task array attached as `children`
and `decomposed` set to true (the two mutations the loop body performs). -/
def TaskNode.withSubTasks : TaskNode → List TaskNode → TaskNode
  | .mk i t s ty _ _, l => .mk i t s ty (some l) (some true)

/-- A task eligible with present (hence empty) children list has no children. -/
theorem eligibleB_some_nil {i t s ty : String} {cs : List TaskNode} {d : Option Bool}
    (h : eligibleB (.mk i t s ty (some cs) d) = true) : cs = [] := by
  simp only [eligibleB, TaskNode.type, TaskNode.children, TaskNode.decomposed,
    Bool.and_eq_true] at h
  exact List.isEmpty_iff.mp h.2

/-- The source traversal equals the append-form eligible list. -/
theorem findTasksToDecompose_eq_elig (n : TaskNode) : findTasksToDecompose n = eligNode n := by
  rw [findTasksToDecompose, findFrom_eq_elig, List.nil_append]

/-- The loop rebuild consumes exactly one call index per eligible node, in pre-order:
its final counter is the start counter plus the number of eligible nodes. -/
theorem applyNode_snd (oracle : Oracle) : ∀ n : TaskNode, ∀ k : Nat,
    (applyNode oracle n k).2 = k + (eligNode n).length := by
  refine preorderNodes.induct
    (fun n => ∀ k : Nat, (applyNode oracle n k).2 = k + (eligNode n).length)
    (fun cs => ∀ k : Nat, (applyForest oracle cs k).2 = k + (eligForest cs).length)
    ?_ ?_ ?_ ?_
  · intro i t s ty d k
    simp only [applyNode, eligNode]
    cases h : eligibleB (.mk i t s ty none d) <;> simp [h]
  · intro i t s ty cs d ih k
    simp only [applyNode, eligNode]
    cases h : eligibleB (.mk i t s ty (some cs) d)
    · simp [h, ih]
    · have hnil : cs = [] := eligibleB_some_nil h
      subst hnil
      simp [h, eligForest]
  · intro k
    simp [applyForest, eligForest]
  · intro c cs ih1 ih2 k
    simp only [applyForest, eligForest]
    simp [ih1, ih2, Nat.add_assoc]

/-- Every node heads its own pre-order enumeration. -/
theorem self_mem_preorder : ∀ m : TaskNode, m ∈ preorderNodes m := by
  intro m
  obtain ⟨i, t, s, ty, c, d⟩ := m
  cases c <;> simp [preorderNodes]

/-- Positional correspondence between the loop and the rebuilt tree: the `j`-th
eligible node of the original tree appears in the rebuilt tree as `updateTask` at
call index (start + j) — exactly the index the source loop uses for it. -/
theorem applyNode_mem (oracle : Oracle) : ∀ n : TaskNode, ∀ (k j : Nat) (t : TaskNode),
    (eligNode n)[j]? = some t →
    updateTask oracle (k + j) t ∈ preorderNodes (applyNode oracle n k).1 := by
  refine preorderNodes.induct
    (fun n => ∀ (k j : Nat) (t : TaskNode), (eligNode n)[j]? = some t →
      updateTask oracle (k + j) t ∈ preorderNodes (applyNode oracle n k).1)
    (fun cs => ∀ (k j : Nat) (t : TaskNode), (eligForest cs)[j]? = some t →
      updateTask oracle (k + j) t ∈ preorderForest (applyForest oracle cs k).1)
    ?_ ?_ ?_ ?_
  · intro i ti s ty d k j t hget
    simp only [eligNode] at hget
    simp only [applyNode]
    cases h : eligibleB (.mk i ti s ty none d)
    · rw [h] at hget
      simp at hget
    · cases j with
      | zero =>
        simp [h] at hget
        subst hget
        simp [h, Nat.add_zero]
        exact self_mem_preorder _
      | succ j2 =>
        simp [h] at hget
  · intro i ti s ty cs d ih k j t hget
    simp only [eligNode] at hget
    simp only [applyNode]
    cases h : eligibleB (.mk i ti s ty (some cs) d)
    · rw [h] at hget
      simp only [Bool.false_eq_true, if_false, List.nil_append] at hget
      simp only [h, Bool.false_eq_true, if_false]
      have hmem := ih k j t hget
      have hpre : preorderNodes (.mk i ti s ty (some (applyForest oracle cs k).1) d) =
          .mk i ti s ty (some (applyForest oracle cs k).1) d ::
            preorderForest (applyForest oracle cs k).1 := by
        simp [preorderNodes]
      rw [hpre]
      exact List.mem_cons_of_mem _ hmem
    · have hnil : cs = [] := eligibleB_some_nil h
      subst hnil
      cases j with
      | zero =>
        simp [h, eligForest] at hget
        subst hget
        simp [h, Nat.add_zero]
        exact self_mem_preorder _
      | succ j2 =>
        simp [h, eligForest] at hget
  · intro k j t hget
    simp [eligForest] at hget
  · intro c cs ih1 ih2 k j t hget
    simp only [eligForest] at hget
    simp only [applyForest]
    have hsplit : preorderForest ((applyNode oracle c k).1 ::
        (applyForest oracle cs (applyNode oracle c k).2).1) =
        preorderNodes (applyNode oracle c k).1 ++
          preorderForest (applyForest oracle cs (applyNode oracle c k).2).1 := by
      simp [preorderForest]
    by_cases hlt : j < (eligNode c).length
    · rw [List.getElem?_append_left hlt] at hget
      have hmem := ih1 k j t hget
      rw [hsplit]
      exact List.mem_append_left _ hmem
    · push_neg at hlt
      rw [List.getElem?_append_right hlt] at hget
      have hmem := ih2 (applyNode oracle c k).2 (j - (eligNode c).length) t hget
      have harith : (applyNode oracle c k).2 + (j - (eligNode c).length) = k + j := by
        rw [applyNode_snd]
        omega
      rw [harith] at hmem
      rw [hsplit]
      exact List.mem_append_right _ hmem

/-- The `j`-th outcome slot belongs to the `j`-th remaining task at call index
start + j. -/
theorem reportSlotsFrom_get (oracle : Oracle) : ∀ (ts : List TaskNode) (k j : Nat)
    (t : TaskNode), ts[j]? = some t →
    (reportSlotsFrom oracle k ts)[j]? = some (reportSlot oracle (k + j) t) := by
  intro ts
  induction ts with
  | nil =>
    intro k j t hget
    simp at hget
  | cons c cs ih =>
    intro k j t hget
    cases j with
    | zero =>
      simp only [List.getElem?_cons_zero, Option.some.injEq] at hget
      subst hget
      simp [reportSlotsFrom]
    | succ j2 =>
      simp only [List.getElem?_cons_succ] at hget
      simp only [reportSlotsFrom, List.getElem?_cons_succ]
      rw [ih (k + 1) j2 t hget]
      rw [show k + 1 + j2 = k + (j2 + 1) from by omega]

/-- The final reply of a decomposition run that reached the loop. -/
def decompositionCompleteReply (oracle : Oracle) (root : TaskNode) : String :=
  "**Decomposition Complete!**\n\n" ++
    String.intercalate "\n" (decompResults oracle (findTasksToDecompose root)) ++
    "\n\n---\n\n**" ++ toString (decompCount oracle (findTasksToDecompose root)) ++
    "** tasks were broken down into sub-tasks. Check the **Task Tree** to see the updated structure.\n\nMoving to **Step 4: Analysis**. Type **\"analyze\"** to continue."

/-- A run that finds a stored, parseable tree with at least one eligible task persists
exactly the stringified rebuilt tree, clears the flag, moves to ANALYSIS, and returns
the aggregate reply. -/
theorem runDecomposition_success_shape (st : WorkflowEngine) (oracle : Oracle)
    (root : TaskNode) (s : String) (hfile : st.tasksFile = some s) (hne : (s == "") = false)
    (hparse : oracle.parseNode s = some root)
    (hcount : ((findTasksToDecompose root).length == 0) = false) :
    runDecomposition st oracle =
      ({ st with
          tasksFile := some (oracle.stringify (applyNode oracle root 0).1)
          isDecomposing := false
          currentStep := .ANALYSIS },
        decompositionCompleteReply oracle root) := by
  unfold runDecomposition decompositionCompleteReply
  dsimp only
  rw [hfile]
  simp only [hne, hparse, hcount, Bool.false_eq_true, if_false]

/-- C2 (amended): in a decomposition run over any tree, each originally-eligible task
(the `j`-th one, taken from the traversal) falls into exactly one of three cases tied
to its own call outcome: on a parse failure it is reported with the ⚠️ failure line
for its slot and the task itself — children untouched — still appears in the rebuilt
tree; on a successful parse of a NON-empty array it appears in the rebuilt tree as
decomposed = true carrying exactly that non-empty array as children, with the ✅ line
in its slot; but on a successful parse of an EMPTY array it is left unchanged AND its
slot is empty — the task is silently absent from the outcome report (refuting the
original "none is silently dropped"; see the counterexample).  The final conjunct
ties these observables to `runDecomposition` itself: the run persists exactly the
stringified rebuilt tree, and its reply lists exactly the non-empty slots. -/
theorem decomposition_run_trichotomy (root : TaskNode) (oracle : Oracle) (j : Nat)
    (t : TaskNode) (hget : (findTasksToDecompose root)[j]? = some t) :
    (∀ msg, decomposeTaskOutcome oracle j = .error msg →
      t ∈ preorderNodes (applyNode oracle root 0).1 ∧
      (reportSlots oracle (findTasksToDecompose root))[j]? =
        some (some ("⚠️ **" ++ t.title ++ "** - Failed: " ++ msg))) ∧
    (∀ l, decomposeTaskOutcome oracle j = .ok l → 0 < l.length →
      t.withSubTasks l ∈ preorderNodes (applyNode oracle root 0).1 ∧
      (reportSlots oracle (findTasksToDecompose root))[j]? =
        some (some ("✅ **" ++ t.title ++ "** → " ++ toString l.length ++ " sub-tasks"))) ∧
    (∀ l, decomposeTaskOutcome oracle j = .ok l → l.length = 0 →
      t ∈ preorderNodes (applyNode oracle root 0).1 ∧
      (reportSlots oracle (findTasksToDecompose root))[j]? = some none) ∧
    (decompResults oracle (findTasksToDecompose root) =
      (reportSlots oracle (findTasksToDecompose root)).reduceOption) ∧
    (∀ (st : WorkflowEngine) (s : String), st.tasksFile = some s → (s == "") = false →
      oracle.parseNode s = some root →
      runDecomposition st oracle =
        ({ st with
            tasksFile := some (oracle.stringify (applyNode oracle root 0).1)
            isDecomposing := false
            currentStep := .ANALYSIS },
          decompositionCompleteReply oracle root)) := by
  have hget2 : (eligNode root)[j]? = some t := by
    rw [← findTasksToDecompose_eq_elig]
    exact hget
  have hmem0 := applyNode_mem oracle root 0 j t hget2
  rw [Nat.zero_add] at hmem0
  have hslot := reportSlotsFrom_get oracle (findTasksToDecompose root) 0 j t hget
  rw [Nat.zero_add] at hslot
  obtain ⟨i, ti, s2, ty, c, d⟩ := t
  refine ⟨?_, ?_, ?_, rfl, ?_⟩
  · intro msg hout
    constructor
    · have hupd : updateTask oracle j (.mk i ti s2 ty c d) = .mk i ti s2 ty c d := by
        simp [updateTask, hout]
      rw [hupd] at hmem0
      exact hmem0
    · rw [reportSlots, hslot]
      simp [reportSlot, hout, TaskNode.title]
  · intro l hout hpos
    constructor
    · have hupd : updateTask oracle j (.mk i ti s2 ty c d) =
          TaskNode.withSubTasks (.mk i ti s2 ty c d) l := by
        simp [updateTask, hout, hpos, TaskNode.withSubTasks]
      rw [hupd] at hmem0
      exact hmem0
    · rw [reportSlots, hslot]
      simp [reportSlot, hout, hpos, TaskNode.title]
  · intro l hout hzero
    constructor
    · have hupd : updateTask oracle j (.mk i ti s2 ty c d) = .mk i ti s2 ty c d := by
        simp [updateTask, hout, hzero]
      rw [hupd] at hmem0
      exact hmem0
    · rw [reportSlots, hslot]
      simp [reportSlot, hout, hzero]
  · intro st s hfile hne hparse
    have hcount : ((findTasksToDecompose root).length == 0) = false := by
      have hlt : j < (findTasksToDecompose root).length :=
        (List.getElem?_eq_some.mp hget).1
      simp only [beq_eq_false_iff_ne, ne_eq]
      omega
    exact runDecomposition_success_shape st oracle root s hfile hne hparse hcount

/-- A sub-task as the model might return it. -/
def subTask1 : TaskNode := .mk "1-1" "Sub 1" "pending" "sub-task" (some []) none

/-- A single eligible main-task. -/
def taskA : TaskNode := .mk "1" "Task A" "pending" "main-task" none none

/-- A project root with one eligible main-task child. -/
def exRoot : TaskNode := .mk "root" "Demo" "pending" "project" (some [taskA]) none

/-- An oracle whose sub-task generation parses to the well-formed EMPTY array. -/
def oracleEmptyArr : Oracle :=
  { chatResp := fun _ => "[]"
    parseNode := fun _ => some exRoot
    parseArr := fun _ => some []
    stringify := fun _ => "serialized"
    readErrMsg := "ENOENT: no such file or directory, open tasks.json"
    parseErrMsg := "Unexpected end of JSON input" }

/-- An oracle whose sub-task generation parses to a well-formed ONE-element array. -/
def oracleOneSub : Oracle :=
  { chatResp := fun _ => "one sub-task"
    parseNode := fun _ => some exRoot
    parseArr := fun _ => some [subTask1]
    stringify := fun _ => "serialized"
    readErrMsg := "ENOENT: no such file or directory, open tasks.json"
    parseErrMsg := "Unexpected end of JSON input" }

/-- C2 counterexample: with one eligible task and a generation call that succeeds with
the well-formed empty array, the run leaves the tree completely unchanged (the task is
not marked decomposed) and produces an empty outcome report — the eligible task is
neither "marked decomposed=true with a non-empty children list" nor "reported as a
failure line": it is silently dropped from the outcome report, refuting the claim. -/
theorem decomposition_silent_drop_counterexample :
    findTasksToDecompose exRoot = [taskA] ∧
    decomposeTaskOutcome oracleEmptyArr 0 = .ok [] ∧
    (applyNode oracleEmptyArr exRoot 0).1 = exRoot ∧
    decompResults oracleEmptyArr (findTasksToDecompose exRoot) = [] ∧
    taskA.decomposed ≠ some true ∧
    ¬ (∀ t ∈ findTasksToDecompose exRoot,
        (∃ l, l ≠ [] ∧
          t.withSubTasks l ∈ preorderNodes (applyNode oracleEmptyArr exRoot 0).1) ∨
        (∃ msg, ("⚠️ **" ++ t.title ++ "** - Failed: " ++ msg) ∈
          decompResults oracleEmptyArr (findTasksToDecompose exRoot))) := by
  refine ⟨rfl, rfl, rfl, rfl, by decide, ?_⟩
  intro hall
  have h := hall taskA (by rw [show findTasksToDecompose exRoot = [taskA] from rfl]; simp)
  rcases h with ⟨l, hlne, hmem⟩ | ⟨msg, hmem⟩
  · rw [show (applyNode oracleEmptyArr exRoot 0).1 = exRoot from rfl] at hmem
    rw [show preorderNodes exRoot = [exRoot, taskA] from rfl] at hmem
    rcases List.mem_cons.mp hmem with h1 | h2
    · have hid : ("1" : String) = "root" := by
        have h1c := h1
        simp only [TaskNode.withSubTasks, taskA, exRoot] at h1c
        injection h1c
      exact absurd hid (by decide)
    · rcases List.mem_cons.mp h2 with h3 | h4
      · have hch : (some l : Option (List TaskNode)) = none := by
          have h3c := h3
          simp only [TaskNode.withSubTasks, taskA] at h3c
          injection h3c with _ _ _ _ hc _
        exact Option.noConfusion hch
      · simp at h4
  · rw [show decompResults oracleEmptyArr (findTasksToDecompose exRoot) = [] from rfl] at hmem
    simp at hmem

/-- Witness for `decomposition_run_trichotomy`: a concrete one-task tree with a parse
failure lands in the failure branch. -/
theorem decomposition_run_trichotomy_witness :
    ((findTasksToDecompose exRoot)[0]? = some taskA) ∧
    taskA ∈ preorderNodes (applyNode oracleParseFail exRoot 0).1 ∧
    (reportSlots oracleParseFail (findTasksToDecompose exRoot))[0]? =
      some (some ("⚠️ **" ++ taskA.title ++ "** - Failed: Failed to parse LLM response")) :=
  ⟨rfl, (decomposition_run_trichotomy exRoot oracleParseFail 0 taskA rfl).1
    "Failed to parse LLM response" rfl⟩

/-- C8 counterexample: a generation call that succeeds with a well-formed JSON array of
ONE sub-task has that one-element array attached verbatim as the children of the
eligible task — fewer than the claimed minimum of 2; the 2..5 bound is only requested
in the prompt text, never enforced by the code. -/
theorem decomposition_one_subtask_counterexample :
    decomposeTaskOutcome oracleOneSub 0 = .ok [subTask1] ∧
    findTasksToDecompose exRoot = [taskA] ∧
    (applyNode oracleOneSub exRoot 0).1 =
      TaskNode.mk "root" "Demo" "pending" "project"
        (some [TaskNode.mk "1" "Task A" "pending" "main-task" (some [subTask1]) (some true)])
        none ∧
    (TaskNode.mk "1" "Task A" "pending" "main-task" (some [subTask1])
      (some true)).childrenList.length = 1 ∧
    ¬ (2 ≤ (TaskNode.mk "1" "Task A" "pending" "main-task" (some [subTask1])
      (some true)).childrenList.length) :=
  ⟨rfl, rfl, rfl, rfl, by decide⟩

/-- C8 (amended): whenever the generation call for a task succeeds with well-formed
JSON parsing to an array of ANY positive length, exactly that array is attached as the
children of the task and `decomposed` is set true — the attached list length equals
the parsed length, with no lower bound of 2 or upper bound of 5 enforced. -/
theorem decomposeTask_attaches_parsed_array (oracle : Oracle) (k : Nat) (t : TaskNode)
    (l : List TaskNode) (hok : decomposeTaskOutcome oracle k = .ok l) (hpos : 0 < l.length) :
    updateTask oracle k t = t.withSubTasks l ∧
    (t.withSubTasks l).childrenList = l ∧
    (t.withSubTasks l).decomposed = some true := by
  obtain ⟨i, ti, s, ty, c, d⟩ := t
  refine ⟨?_, rfl, rfl⟩
  simp [updateTask, hok, hpos, TaskNode.withSubTasks]

/-- Witness for `decomposeTask_attaches_parsed_array` at the one-element array. -/
theorem decomposeTask_attaches_parsed_array_witness :
    updateTask oracleOneSub 0 taskA = taskA.withSubTasks [subTask1] ∧
    (taskA.withSubTasks [subTask1]).childrenList = [subTask1] ∧
    (taskA.withSubTasks [subTask1]).decomposed = some true :=
  decomposeTask_attaches_parsed_array oracleOneSub 0 taskA [subTask1] rfl (by decide)
